import Mathlib

/-!
Shallow embedding of `src/bonds.py`.

Conventions of the embedding:

* A Python `datetime.date` is represented by its proleptic-Gregorian ordinal
  (`date.toordinal()`: day 1 is 0001-01-01).  Adding a
  `datetime.timedelta(days)` is ordinal addition and date comparison is
  ordinal comparison, exactly as in CPython.
* Python `Decimal` amounts are modelled as exact rationals `ℚ`; `Decimal`
  division by zero raises, which is modelled with `Except`.
* The spec's data-model invariant `coupon_period_days > 0` is carried as a
  field of the `Bond` structure, which makes the two `while` loops of
  `Bond.coupon_payments` and `Bond.n` terminating, as they are in Python
  under that invariant.
-/

/-- Leap-year test of the proleptic Gregorian calendar (CPython
`datetime._is_leap`). -/
def isLeap (y : Nat) : Bool := y % 4 == 0 && (y % 100 != 0 || y % 400 == 0)

/-- Days in the months strictly before month `m` in a non-leap year
(CPython's `_DAYS_BEFORE_MONTH` table). -/
def daysBeforeMonthTable (m : Nat) : Nat :=
  match m with
  | 1 => 0 | 2 => 31 | 3 => 59 | 4 => 90 | 5 => 120 | 6 => 151
  | 7 => 181 | 8 => 212 | 9 => 243 | 10 => 273 | 11 => 304 | 12 => 334
  | _ => 0

/-- Number of days before January 1st of year `y` (CPython
`datetime._days_before_year`). -/
def daysBeforeYear (y : Nat) : Nat :=
  (y - 1) * 365 + (y - 1) / 4 - (y - 1) / 100 + (y - 1) / 400

/-- `datetime.date(y, m, d).toordinal()`: proleptic Gregorian ordinal, with
day 1 being 0001-01-01. -/
def toOrdinal (y m d : Nat) : Nat :=
  daysBeforeYear y + daysBeforeMonthTable m + (if 2 < m ∧ isLeap y then 1 else 0) + d

/-- Linear index `year * 12 + (month - 1)` of the calendar month an ordinal
falls in, computed by the standard civil-from-days conversion.  This models
the `resample('M')` monthly bucketing key (a `YYYY/MM` label in the source's
output). -/
def monthIndex (o : Nat) : Nat :=
  let z := o + 305
  let era := z / 146097
  let doe := z % 146097
  let yoe := (doe - doe / 1460 + doe / 36524 - doe / 146096) / 365
  let y := yoe + era * 400
  let doy := doe - (365 * yoe + yoe / 4 - yoe / 100)
  let mp := (5 * doy + 2) / 153
  let m := if mp < 10 then mp + 3 else mp - 9
  let year := if m ≤ 2 then y + 1 else y
  year * 12 + (m - 1)

/-- The `Bond` class of `src/bonds.py`: name, `Decimal` face value and
coupon, coupon period in days, first coupon date and maturity date.
The positivity of `coupon_days` is the spec's data-model invariant
(`coupon_period_days … > 0`). -/
structure Bond where
  name : String
  face_value : ℚ
  coupon : ℚ
  coupon_days : Nat
  first_coupon_date : Nat
  maturity_date : Nat
  coupon_days_pos : 0 < coupon_days

/-- One step of the `while coupon_date <= self.maturity_date` loop of
`Bond.coupon_payments`, indexed by a fuel that dominates the number of
remaining iterations: starting at `cur`, append `(coupon_date, coupon)` and
step by `cd` days while the date does not exceed `stop`. -/
def couponFuel (cd : Nat) (c : ℚ) (cur stop : Nat) : Nat → List (Nat × ℚ)
  | 0 => []
  | fuel + 1 =>
      if cur ≤ stop then (cur, c) :: couponFuel cd c (cur + cd) stop fuel else []

/-- One step of the `while` loop of the `Bond.n` property, fuel-indexed the
same way: count the steps from `cur` to the first date exceeding `stop`. -/
def countFuel (cd : Nat) (cur stop : Nat) : Nat → Nat
  | 0 => 0
  | fuel + 1 =>
      if cur ≤ stop then countFuel cd (cur + cd) stop fuel + 1 else 0

/-- The `while coupon_date <= self.maturity_date` loop of
`Bond.coupon_payments`.  The fuel `stop + 2 - cur` strictly dominates the
iteration count whenever `0 < cd` (each pass advances the date by at least
one day), so this is exactly the Python loop under the data-model invariant
carried by `hcd`; `couponLoop_eq` below recovers the loop-step equation. -/
def couponLoop (cd : Nat) (hcd : 0 < cd) (c : ℚ) (cur stop : Nat) : List (Nat × ℚ) :=
  couponFuel cd c cur stop (stop + 2 - cur)

/-- The `while` loop of the `Bond.n` property, encoded like `couponLoop`. -/
def countLoop (cd : Nat) (hcd : 0 < cd) (cur stop : Nat) : Nat :=
  countFuel cd cur stop (stop + 2 - cur)

/-- Any two sufficient fuels run `couponFuel` to the same result. -/
theorem couponFuel_stable (cd : Nat) (hcd : 0 < cd) (c : ℚ) :
    ∀ (f1 cur stop f2 : Nat), stop + 2 - cur ≤ f1 → stop + 2 - cur ≤ f2 →
      couponFuel cd c cur stop f1 = couponFuel cd c cur stop f2 := by
  intro f1
  induction f1 with
  | zero =>
      intro cur stop f2 h1 h2
      have hcs : ¬ cur ≤ stop := by omega
      cases f2 with
      | zero => rfl
      | succ b => simp [couponFuel, hcs]
  | succ a ih =>
      intro cur stop f2 h1 h2
      by_cases hcs : cur ≤ stop
      · cases f2 with
        | zero => exfalso; omega
        | succ b =>
            simp only [couponFuel, if_pos hcs]
            rw [ih (cur + cd) stop b (by omega) (by omega)]
      · cases f2 with
        | zero => simp [couponFuel, hcs]
        | succ b => simp [couponFuel, hcs]

/-- Any two sufficient fuels run `countFuel` to the same result. -/
theorem countFuel_stable (cd : Nat) (hcd : 0 < cd) :
    ∀ (f1 cur stop f2 : Nat), stop + 2 - cur ≤ f1 → stop + 2 - cur ≤ f2 →
      countFuel cd cur stop f1 = countFuel cd cur stop f2 := by
  intro f1
  induction f1 with
  | zero =>
      intro cur stop f2 h1 h2
      have hcs : ¬ cur ≤ stop := by omega
      cases f2 with
      | zero => rfl
      | succ b => simp [countFuel, hcs]
  | succ a ih =>
      intro cur stop f2 h1 h2
      by_cases hcs : cur ≤ stop
      · cases f2 with
        | zero => exfalso; omega
        | succ b =>
            simp only [countFuel, if_pos hcs]
            rw [ih (cur + cd) stop b (by omega) (by omega)]
      · cases f2 with
        | zero => simp [countFuel, hcs]
        | succ b => simp [countFuel, hcs]

/-- The loop-step equation of `couponLoop`: test the date, append, advance. -/
theorem couponLoop_eq (cd : Nat) (hcd : 0 < cd) (c : ℚ) (cur stop : Nat) :
    couponLoop cd hcd c cur stop
      = if cur ≤ stop then (cur, c) :: couponLoop cd hcd c (cur + cd) stop else [] := by
  unfold couponLoop
  by_cases hcs : cur ≤ stop
  · rw [if_pos hcs]
    have h1 : stop + 2 - cur = (stop + 1 - cur) + 1 := by omega
    rw [h1]
    simp only [couponFuel, if_pos hcs]
    rw [couponFuel_stable cd hcd c (stop + 1 - cur) (cur + cd) stop
      (stop + 2 - (cur + cd)) (by omega) (by omega)]
  · rw [if_neg hcs]
    cases h : stop + 2 - cur with
    | zero => rfl
    | succ k => simp [couponFuel, hcs]

/-- The loop-step equation of `countLoop`: test the date, count, advance. -/
theorem countLoop_eq (cd : Nat) (hcd : 0 < cd) (cur stop : Nat) :
    countLoop cd hcd cur stop
      = if cur ≤ stop then countLoop cd hcd (cur + cd) stop + 1 else 0 := by
  unfold countLoop
  by_cases hcs : cur ≤ stop
  · rw [if_pos hcs]
    have h1 : stop + 2 - cur = (stop + 1 - cur) + 1 := by omega
    rw [h1]
    simp only [countFuel, if_pos hcs]
    rw [countFuel_stable cd hcd (stop + 1 - cur) (cur + cd) stop
      (stop + 2 - (cur + cd)) (by omega) (by omega)]
  · rw [if_neg hcs]
    cases h : stop + 2 - cur with
    | zero => rfl
    | succ k => simp [countFuel, hcs]

/-- `Bond.coupon_payments`: the ordered list of `(date, coupon)` rows that
the source puts into a single-bond dataframe indexed by date. -/
def Bond.coupon_payments (b : Bond) : List (Nat × ℚ) :=
  couponLoop b.coupon_days b.coupon_days_pos b.coupon b.first_coupon_date b.maturity_date

/-- `Bond.n`: the number of coupon periods, counted by the same stepping
loop as `coupon_payments`. -/
def Bond.n (b : Bond) : Nat :=
  countLoop b.coupon_days b.coupon_days_pos b.first_coupon_date b.maturity_date

/-- `DAYS_PER_YEAR` constant of the source. -/
def DAYS_PER_YEAR : ℚ := 365

/-- `Bond.coupon_per_year`: `self.coupon * DAYS_PER_YEAR / self.coupon_days`
(the division never hits a zero divisor since `coupon_days > 0`). -/
def Bond.coupon_per_year (b : Bond) : ℚ :=
  b.coupon * DAYS_PER_YEAR / (b.coupon_days : ℚ)

/-- The second operand of `Bond.__mul__`: a Python value that either is an
`int` (then `isinstance(other, int)` holds) or is not. -/
inductive PyScalar where
  | int (k : Int)
  | nonInt
deriving DecidableEq

/-- `Bond.__mul__`: for an `int` operand return the scaled bond (name tagged
with the factor, face value and coupon multiplied, dates and period kept);
for anything else raise `TypeError`. -/
def Bond.mul (b : Bond) (s : PyScalar) : Except String Bond :=
  match s with
  | .int k =>
      .ok { name := b.name ++ "*" ++ toString k
            face_value := b.face_value * (k : ℚ)
            coupon := b.coupon * (k : ℚ)
            coupon_days := b.coupon_days
            first_coupon_date := b.first_coupon_date
            maturity_date := b.maturity_date
            coupon_days_pos := b.coupon_days_pos }
  | .nonInt => .error "TypeError"

/-- `Bond.__rmul__`: `return self * other`. -/
def Bond.rmul (s : PyScalar) (b : Bond) : Except String Bond := b.mul s

/-- `Decimal` division: raises `DivisionByZero` on a zero divisor, otherwise
exact quotient. -/
def decDiv (x y : ℚ) : Except String ℚ :=
  if y = 0 then .error "DivisionByZero" else .ok (x / y)

/-- The `BondDeal` class: a bond together with the price paid. -/
structure BondDeal where
  bond : Bond
  price : ℚ

/-- `BondDeal.current_yield`: `self.bond.coupon_per_year / self.price`,
a `Decimal` division that raises on a zero price. -/
def BondDeal.current_yield (d : BondDeal) : Except String ℚ :=
  decDiv d.bond.coupon_per_year d.price

/-- `BondDeal._yield_to_maturity_function`: the pricing residual
`coupon * ((1 - 1/(1+ytm)^n) / ytm) + face_value / (1+ytm)^n - price`. -/
def BondDeal.yield_to_maturity_function (d : BondDeal) (ytm : ℚ) : ℚ :=
  d.bond.coupon * ((1 - 1 / (1 + ytm) ^ d.bond.n) / ytm)
    + d.bond.face_value / (1 + ytm) ^ d.bond.n
    - d.price

/-- Modelled from the spec: `utils.secant`, imported by `src/bonds.py` from a
module `utils` that is not under `src/`.  Per spec section 4.2: iterate
`r_next = r1 - f(r1) * (r1 - r0) / (f(r1) - f(r0))`, shift
`(r0, r1) <- (r1, r_next)`, for the full fixed iteration budget with no
early-exit convergence check, returning the final `r1`; a zero denominator
(`f(r1) == f(r0)`) is fatal and surfaces as `SolverDegenerate`. -/
def secant (f : ℚ → ℚ) : ℚ → ℚ → Nat → Except String ℚ
  | _, r1, 0 => .ok r1
  | r0, r1, k + 1 =>
      if f r1 - f r0 = 0 then .error "SolverDegenerate"
      else secant f r1 (r1 - f r1 * (r1 - r0) / (f r1 - f r0)) k

/-- `BondDeal.yield_to_maturity`: secant method on the pricing residual from
`r0 = Decimal('0.000001')` and `r1 = Decimal('1')` for 100 iterations, the
resulting periodic rate annualized by `* DAYS_PER_YEAR / coupon_days`. -/
def BondDeal.yield_to_maturity (d : BondDeal) : Except String ℚ :=
  (secant d.yield_to_maturity_function (1 / 1000000) 1 100).map
    (fun r => r * DAYS_PER_YEAR / (d.bond.coupon_days : ℚ))

/-- The YTM pricing function exactly as the spec writes it:
`coupon × (1 − (1+r)^(−n)) / r + face_value × (1+r)^(−n) − price`.
Second definition for the refinement claim, to be compared with the
source-translated `BondDeal.yield_to_maturity_function`. -/
def specPricingF (b : Bond) (price : ℚ) (r : ℚ) : ℚ :=
  b.coupon * (1 - (1 + r) ^ (-(b.n : ℤ))) / r
    + b.face_value * (1 + r) ^ (-(b.n : ℤ)) - price

/-!
The portfolio aggregator, `BondCollection.print_all_coupons`.

* The iterated `pd.merge(..., on='date', how='outer', sort=True)` keys the
  rows by the union of all bonds' coupon dates; a date absent from a bond's
  schedule leaves a missing value (`NaN`) in that bond's column, which every
  later `sum` skips — modelled by `paymentAt` returning the bond's payment
  on that date or `0`.
* `merged['total'] = merged.sum(axis=1)` is the per-date sum over the bond
  columns (`rowTotal`).
* `merged.resample('M').sum()` sums every column (each bond's column and the
  `total` column) within each calendar month, over the contiguous range of
  months spanned by the date index, then `.sum(axis=1)` adds those per-month
  column sums together (`monthValue`).
* `grouped[grouped != 0]` drops the zero months.
The report is returned as a list of `(month index, amount)` pairs instead of
printed `YYYY/MM`-labelled lines.
-/

/-- The value a bond column holds on row `d` as far as the pandas sums are
concerned: the bond's payment on that date, or nothing (`NaN`, skipped by
`sum`, i.e. `0`) when the outer join left the cell empty. -/
def paymentAt (ps : List (Nat × ℚ)) (d : Nat) : ℚ := (ps.lookup d).getD 0

/-- The date index of the outer-joined dataframe: the union of all bonds'
coupon dates. -/
def mergedDates (pss : List (List (Nat × ℚ))) : List Nat :=
  (pss.flatMap (fun ps => ps.map Prod.fst)).dedup

/-- `merged.sum(axis=1)` on a date row: the `total` column. -/
def rowTotal (pss : List (List (Nat × ℚ))) (d : Nat) : ℚ :=
  (pss.map (fun ps => paymentAt ps d)).sum

/-- The dates of the index falling in month `mk`. -/
def monthDates (pss : List (List (Nat × ℚ))) (mk : Nat) : List Nat :=
  (mergedDates pss).filter (fun d => monthIndex d = mk)

/-- `merged.resample('M').sum().sum(axis=1)` at month `mk`: the per-month sum
of every bond column plus the per-month sum of the `total` column. -/
def monthValue (pss : List (List (Nat × ℚ))) (mk : Nat) : ℚ :=
  (pss.map (fun ps => ((monthDates pss mk).map (paymentAt ps)).sum)).sum
    + ((monthDates pss mk).map (rowTotal pss)).sum

/-- The contiguous range of month indices produced by `resample('M')`: from
the earliest to the latest month occurring in the list. -/
def monthSpan : List Nat → List Nat
  | [] => []
  | m :: ms => List.range' (ms.foldl min m) (ms.foldl max m + 1 - ms.foldl min m)

/-- `BondCollection.print_all_coupons`, as the finite map it prints: one
`(month, amount)` row per calendar month in the span of the merged date
index, zero-amount months dropped. -/
def print_all_coupons (bonds : List Bond) : List (Nat × ℚ) :=
  ((monthSpan ((mergedDates (bonds.map Bond.coupon_payments)).map monthIndex)).map
      (fun mk => (mk, monthValue (bonds.map Bond.coupon_payments) mk))).filter
    (fun e => e.2 ≠ 0)

/-- The quantity the spec says each month of the report carries: the sum of
all coupon payments, across all bonds, whose dates fall in that calendar
month.  Stated from the spec's words, for comparison with
`print_all_coupons`. -/
def monthPayments (bonds : List Bond) (mk : Nat) : ℚ :=
  (((bonds.flatMap Bond.coupon_payments).filter
      (fun p => monthIndex p.1 = mk)).map Prod.snd).sum

/-- The bond `ofz_29012` constructed in the source's `__main__` block:
`Bond(name='OFZ_29012', face_value=1000, coupon=Decimal('39.59'),
coupon_days=182, first_coupon_date=date(2019, 11, 20),
maturity_date=date(2022, 11, 16))`. -/
def ofz_29012 : Bond :=
  { name := "OFZ_29012"
    face_value := 1000
    coupon := 3959 / 100
    coupon_days := 182
    first_coupon_date := toOrdinal 2019 11 20
    maturity_date := toOrdinal 2022 11 16
    coupon_days_pos := by decide }

/-- A one-payment test bond: a single coupon of `1` on 2020-01-15 (ordinal
737439, month index 24240). -/
def testBondA : Bond :=
  { name := "A"
    face_value := 100
    coupon := 1
    coupon_days := 9999
    first_coupon_date := toOrdinal 2020 1 15
    maturity_date := toOrdinal 2020 1 15
    coupon_days_pos := by decide }

/-- A bond whose first coupon date lies strictly after its maturity date. -/
def testBondLate : Bond :=
  { name := "LATE"
    face_value := 100
    coupon := 1
    coupon_days := 1
    first_coupon_date := 10
    maturity_date := 5
    coupon_days_pos := by decide }

/-!
Lemmas about the coupon-generation loop.
-/

theorem couponLoop_length (cd : Nat) (hcd : 0 < cd) (c : ℚ) (cur stop : Nat) :
    (couponLoop cd hcd c cur stop).length = countLoop cd hcd cur stop := by
  by_cases h : cur ≤ stop
  · rw [couponLoop_eq, countLoop_eq, if_pos h, if_pos h, List.length_cons,
      couponLoop_length cd hcd c (cur + cd) stop]
  · rw [couponLoop_eq, countLoop_eq, if_neg h, if_neg h]
    rfl
termination_by stop + 1 - cur
decreasing_by omega

theorem couponLoop_mem (cd : Nat) (hcd : 0 < cd) (c : ℚ) (cur stop d : Nat) (a : ℚ) :
    (d, a) ∈ couponLoop cd hcd c cur stop ↔
      a = c ∧ d ≤ stop ∧ ∃ k : Nat, d = cur + k * cd := by
  by_cases h : cur ≤ stop
  · rw [couponLoop_eq, if_pos h, List.mem_cons,
      couponLoop_mem cd hcd c (cur + cd) stop d a]
    constructor
    · rintro (heq | ⟨ha, hd, k, hk⟩)
      · rw [Prod.mk.injEq] at heq
        obtain ⟨hd, ha⟩ := heq
        subst hd
        exact ⟨ha, h, 0, by ring⟩
      · refine ⟨ha, hd, k + 1, ?_⟩
        rw [hk]
        ring
    · rintro ⟨ha, hd, k, hk⟩
      cases k with
      | zero =>
          left
          rw [Prod.mk.injEq]
          exact ⟨by omega, ha⟩
      | succ k =>
          right
          refine ⟨ha, hd, k, ?_⟩
          rw [hk]
          ring
  · rw [couponLoop_eq, if_neg h]
    simp only [List.not_mem_nil, false_iff, not_and]
    rintro ha hd ⟨k, hk⟩
    subst hk
    exact h (le_trans (Nat.le_add_right cur (k * cd)) hd)
termination_by stop + 1 - cur
decreasing_by omega

theorem couponLoop_keys_nodup (cd : Nat) (hcd : 0 < cd) (c : ℚ) (cur stop : Nat) :
    ((couponLoop cd hcd c cur stop).map Prod.fst).Nodup := by
  by_cases h : cur ≤ stop
  · rw [couponLoop_eq, if_pos h, List.map_cons]
    refine List.nodup_cons.mpr ⟨?_, couponLoop_keys_nodup cd hcd c (cur + cd) stop⟩
    intro hmem
    obtain ⟨⟨d, a⟩, hda, hfst⟩ := List.mem_map.mp hmem
    rw [couponLoop_mem] at hda
    obtain ⟨ha, hd, k, hk⟩ := hda
    simp only at hfst
    have hge : cur + cd ≤ d := hk ▸ Nat.le_add_right (cur + cd) (k * cd)
    omega
  · rw [couponLoop_eq, if_neg h]
    simp
termination_by stop + 1 - cur
decreasing_by omega

/-- The coupon dates of any bond are distinct. -/
theorem Bond.keys_nodup (b : Bond) : (b.coupon_payments.map Prod.fst).Nodup :=
  couponLoop_keys_nodup b.coupon_days b.coupon_days_pos b.coupon
    b.first_coupon_date b.maturity_date

/-!
Lemmas about the aggregator's sums.
-/

theorem paymentAt_nil (d : Nat) : paymentAt [] d = 0 := rfl

theorem paymentAt_cons (k : Nat) (a : ℚ) (tl : List (Nat × ℚ)) (d : Nat) :
    paymentAt ((k, a) :: tl) d = if d = k then a else paymentAt tl d := by
  unfold paymentAt
  rw [List.lookup_cons]
  by_cases h : d = k
  · simp [h]
  · have hb : (d == k) = false := by simp [h]
    rw [hb]
    simp [h]

theorem paymentAt_eq_zero (ps : List (Nat × ℚ)) (d : Nat)
    (h : d ∉ ps.map Prod.fst) : paymentAt ps d = 0 := by
  induction ps with
  | nil => rfl
  | cons q tl ih =>
      obtain ⟨k, a⟩ := q
      rw [List.map_cons, List.mem_cons, not_or] at h
      rw [paymentAt_cons, if_neg h.1]
      exact ih h.2

theorem sum_map_if_eq (l : List Nat) (k : Nat) (a : ℚ) (hl : l.Nodup) :
    (l.map (fun d => if d = k then a else 0)).sum = if k ∈ l then a else 0 := by
  induction l with
  | nil => simp
  | cons x xs ih =>
      rw [List.nodup_cons] at hl
      rw [List.map_cons, List.sum_cons, ih hl.2]
      by_cases hx : x = k
      · subst hx
        rw [if_pos rfl, if_neg (fun hk => hl.1 hk), if_pos (List.mem_cons_self x xs), add_zero]
      · rw [if_neg hx]
        by_cases hk : k ∈ xs
        · rw [if_pos hk, if_pos (List.mem_cons_of_mem x hk), zero_add]
        · have hnc : k ∉ x :: xs := by
            rw [List.mem_cons]
            rintro (e | e)
            · exact hx e.symm
            · exact hk e
          rw [if_neg hk, if_neg hnc, add_zero]

/-- Summing a bond's column over any duplicate-free date index that covers
its coupon dates, restricted by a predicate on dates, is summing the bond's
own filtered payments: the outer join neither drops nor corrupts a column. -/
theorem sum_paymentAt_filter (p : Nat → Bool) (ps : List (Nat × ℚ)) :
    ∀ D : List Nat, D.Nodup → (ps.map Prod.fst).Nodup → (∀ q ∈ ps, q.1 ∈ D) →
      ((D.filter p).map (fun d => paymentAt ps d)).sum
        = ((ps.filter (fun q => p q.1)).map Prod.snd).sum := by
  induction ps with
  | nil =>
      intro D _ _ _
      simp [paymentAt_nil]
  | cons q tl ih =>
      obtain ⟨k, a⟩ := q
      intro D hD hkeys hsub
      rw [List.map_cons, List.nodup_cons] at hkeys
      have hknotin : k ∉ tl.map Prod.fst := hkeys.1
      have htlsub : ∀ q ∈ tl, q.1 ∈ D := fun q hq => hsub q (List.mem_cons_of_mem _ hq)
      have hk0 : paymentAt tl k = 0 := paymentAt_eq_zero tl k hknotin
      have hpt : ∀ d, paymentAt ((k, a) :: tl) d
          = (if d = k then a else 0) + paymentAt tl d := by
        intro d
        rw [paymentAt_cons]
        by_cases h : d = k
        · subst h
          rw [if_pos rfl, if_pos rfl, hk0, add_zero]
        · rw [if_neg h, if_neg h, zero_add]
      calc ((D.filter p).map (fun d => paymentAt ((k, a) :: tl) d)).sum
          = ((D.filter p).map (fun d => (if d = k then a else 0) + paymentAt tl d)).sum := by
            simp only [hpt]
        _ = ((D.filter p).map (fun d => if d = k then a else 0)).sum
            + ((D.filter p).map (fun d => paymentAt tl d)).sum := List.sum_map_add
        _ = (if k ∈ D.filter p then a else 0)
            + ((tl.filter (fun q => p q.1)).map Prod.snd).sum := by
            rw [sum_map_if_eq _ _ _ (hD.filter p), ih D hD hkeys.2 htlsub]
        _ = ((((k, a) :: tl).filter (fun q => p q.1)).map Prod.snd).sum := by
            rw [List.filter_cons]
            have hkD : k ∈ D := hsub (k, a) (List.mem_cons_self _ _)
            by_cases hp : p k
            · rw [if_pos (by simpa using List.mem_filter.mpr ⟨hkD, hp⟩)]
              simp [hp]
            · have hnm : k ∉ D.filter p := fun hm => hp (List.mem_filter.mp hm).2
              rw [if_neg (by simpa using hnm)]
              simp [hp]

/-- Exchanging a double list-sum. -/
theorem sum_map_comm {α β : Type} (L1 : List α) (L2 : List β) (f : α → β → ℚ) :
    (L1.map (fun x => (L2.map (fun y => f x y)).sum)).sum
      = (L2.map (fun y => (L1.map (fun x => f x y)).sum)).sum := by
  induction L1 with
  | nil => simp
  | cons x xs ih =>
      rw [List.map_cons, List.sum_cons, ih, ← List.sum_map_add]
      simp only [List.map_cons, List.sum_cons]

/-- The spec-side monthly payment sum, bond by bond. -/
theorem monthPayments_eq_sum (bonds : List Bond) (mk : Nat) :
    monthPayments bonds mk
      = (bonds.map (fun b =>
          ((b.coupon_payments.filter (fun q => decide (monthIndex q.1 = mk))).map
            Prod.snd).sum)).sum := by
  induction bonds with
  | nil => simp [monthPayments]
  | cons b tl ih =>
      unfold monthPayments at ih ⊢
      rw [List.flatMap_cons, List.filter_append, List.map_append, List.sum_append, ih,
        List.map_cons, List.sum_cons]

/-- The aggregated value the code computes for a month is twice the sum of
that month's coupon payments: the `total` column, itself the per-date sum of
the bond columns, is summed once more alongside them by
`resample('M').sum().sum(axis=1)`. -/
theorem monthValue_eq_two_mul (bonds : List Bond) (mk : Nat) :
    monthValue (bonds.map Bond.coupon_payments) mk = 2 * monthPayments bonds mk := by
  have hsub : ∀ b ∈ bonds, ∀ q ∈ b.coupon_payments,
      q.1 ∈ mergedDates (bonds.map Bond.coupon_payments) := by
    intro b hb q hq
    unfold mergedDates
    rw [List.mem_dedup]
    exact List.mem_flatMap.mpr
      ⟨b.coupon_payments, List.mem_map_of_mem Bond.coupon_payments hb,
        List.mem_map_of_mem Prod.fst hq⟩
  have hD : (mergedDates (bonds.map Bond.coupon_payments)).Nodup := List.nodup_dedup _
  have hA : ((bonds.map Bond.coupon_payments).map
      (fun ps => ((monthDates (bonds.map Bond.coupon_payments) mk).map
        (fun d => paymentAt ps d)).sum)).sum = monthPayments bonds mk := by
    rw [List.map_map, monthPayments_eq_sum]
    refine congrArg List.sum (List.map_congr_left ?_)
    intro b hb
    show ((monthDates (bonds.map Bond.coupon_payments) mk).map
        (fun d => paymentAt b.coupon_payments d)).sum = _
    unfold monthDates
    exact sum_paymentAt_filter _ _ _ hD b.keys_nodup (hsub b hb)
  have hswap : ((monthDates (bonds.map Bond.coupon_payments) mk).map
      (rowTotal (bonds.map Bond.coupon_payments))).sum
      = ((bonds.map Bond.coupon_payments).map
          (fun ps => ((monthDates (bonds.map Bond.coupon_payments) mk).map
            (fun d => paymentAt ps d)).sum)).sum := by
    unfold rowTotal
    exact sum_map_comm _ _ (fun d ps => paymentAt ps d)
  unfold monthValue
  rw [hswap, hA]
  ring

/-- Membership in the emitted report pins the amount to `monthValue` and
rules out zero. -/
theorem mem_report (bonds : List Bond) (mk : Nat) (v : ℚ)
    (h : (mk, v) ∈ print_all_coupons bonds) :
    v = monthValue (bonds.map Bond.coupon_payments) mk ∧ v ≠ 0 := by
  unfold print_all_coupons at h
  rw [List.mem_filter] at h
  obtain ⟨hmem, hne⟩ := h
  obtain ⟨mk2, hmk2, heq⟩ := List.mem_map.mp hmem
  rw [Prod.mk.injEq] at heq
  obtain ⟨h1, h2⟩ := heq
  subst h1
  exact ⟨h2.symm, by simpa using hne⟩

/-!
Concrete evaluations used by witnesses and counterexamples.
-/

theorem ofz_n_eval : ofz_29012.n = 7 := by
  unfold Bond.n ofz_29012
  norm_num [toOrdinal, daysBeforeYear, daysBeforeMonthTable, isLeap]
  repeat (rw [countLoop_eq]; norm_num)

theorem testA_payments : testBondA.coupon_payments = [(737439, 1)] := by
  unfold Bond.coupon_payments testBondA
  norm_num [toOrdinal, daysBeforeYear, daysBeforeMonthTable, isLeap]
  repeat (rw [couponLoop_eq]; norm_num)

theorem reportA_eval : print_all_coupons [testBondA] = [(24240, 2)] := by
  unfold print_all_coupons
  rw [List.map_cons, List.map_nil, testA_payments]
  norm_num [monthSpan, mergedDates, monthValue, monthDates, rowTotal, paymentAt, monthIndex,
    List.dedup, List.filter, List.lookup]

theorem monthPaymentsA_eval : monthPayments [testBondA] 24240 = 1 := by
  unfold monthPayments
  rw [List.flatMap_cons, List.flatMap_nil, testA_payments]
  norm_num [monthIndex, List.filter]

/-!
The claims.
-/

/-- C1, as stated, is false on the code: for the one-bond portfolio holding a
single coupon of 1 (paid 2020-01-15, month 2020/01 = index 24240), the
emitted report assigns the month the value 2, while the sum of all coupon
payments of that month is 1 — the `total` column is summed a second time. -/
theorem claim_C1_counterexample :
    (24240, (2 : ℚ)) ∈ print_all_coupons [testBondA]
      ∧ monthPayments [testBondA] 24240 = 1 ∧ (2 : ℚ) ≠ 1 :=
  ⟨by rw [reportA_eval]; exact List.mem_singleton.mpr rfl, monthPaymentsA_eval, by norm_num⟩

/-- C1 (amended): for every portfolio, the monthly report emitted by the
aggregator assigns to each month a value equal to TWICE the sum of all
coupon payments, across all bonds, whose dates fall in that calendar month
(the per-date `total` column is summed alongside the bond columns); dates
absent for a bond contribute zero without corrupting the other bonds'
figures. -/
theorem claim_C1 (bonds : List Bond) (mk : Nat) (v : ℚ)
    (h : (mk, v) ∈ print_all_coupons bonds) : v = 2 * monthPayments bonds mk := by
  obtain ⟨h1, _⟩ := mem_report bonds mk v h
  rw [h1, monthValue_eq_two_mul]

/-- Witness for C1 (amended) at the concrete one-bond portfolio. -/
theorem claim_C1_witness : (2 : ℚ) = 2 * monthPayments [testBondA] 24240 :=
  claim_C1 [testBondA] 24240 2 (by rw [reportA_eval]; exact List.mem_singleton.mpr rfl)

/-- C2, as stated, is false on the code: the bond `ofz_29012` (face 1000,
coupon 39.59, period 182 days, first coupon 2019-11-20, maturity 2022-11-16)
generates 7 coupon payments, not 6 — the span is exactly 1092 = 6 × 182
days, so the dates `first + k·182` for `k = 0..6` are all ≤ maturity. -/
theorem claim_C2_counterexample :
    ofz_29012.n = 7 ∧ ofz_29012.coupon_payments.length = 7 ∧ (7 : Nat) ≠ 6 :=
  ⟨ofz_n_eval,
    (couponLoop_length ofz_29012.coupon_days ofz_29012.coupon_days_pos ofz_29012.coupon
      ofz_29012.first_coupon_date ofz_29012.maturity_date).trans ofz_n_eval,
    by decide⟩

/-- C2 (amended): the bond with face value 1000, coupon 39.59, coupon period
182 days, first coupon date 2019-11-20 and maturity date 2022-11-16
generates exactly 7 coupon payments: its `n` equals 7 and its
`coupon_payments` sequence has exactly 7 entries. -/
theorem claim_C2 : ofz_29012.n = 7 ∧ ofz_29012.coupon_payments.length = 7 :=
  ⟨ofz_n_eval,
    (couponLoop_length ofz_29012.coupon_days ofz_29012.coupon_days_pos ofz_29012.coupon
      ofz_29012.first_coupon_date ofz_29012.maturity_date).trans ofz_n_eval⟩

/-- C3, as stated, is false on the code: scaling a bond by the integer 0 or
by a negative integer does not raise — `__mul__` only checks
`isinstance(other, int)` and happily returns a zero- or negative-sized
bond. -/
theorem claim_C3_counterexample :
    (ofz_29012.mul (PyScalar.int 0)).isOk = true
      ∧ (ofz_29012.mul (PyScalar.int (-5))).isOk = true
      ∧ (Bond.rmul (PyScalar.int 0) ofz_29012).isOk = true :=
  ⟨rfl, rfl, rfl⟩

/-- C3 (amended): scaling a Bond by a non-integer raises an error
(`TypeError`), via `b * k` and `k * b` alike; scaling by ANY integer —
positive, zero or negative — succeeds and returns a Bond. -/
theorem claim_C3 (b : Bond) :
    b.mul PyScalar.nonInt = Except.error "TypeError"
      ∧ Bond.rmul PyScalar.nonInt b = Except.error "TypeError"
      ∧ ∀ k : Int, (b.mul (PyScalar.int k)).isOk = true
          ∧ (Bond.rmul (PyScalar.int k) b).isOk = true :=
  ⟨rfl, rfl, fun _ => ⟨rfl, rfl⟩⟩

/-- C4: for every Bond, the length of `coupon_payments` equals `n`: the two
operations step dates by the same rule and always agree. -/
theorem claim_C4 (b : Bond) : b.coupon_payments.length = b.n :=
  couponLoop_length b.coupon_days b.coupon_days_pos b.coupon
    b.first_coupon_date b.maturity_date

/-- C5: for every Bond `b` and positive integer `k`, the scaled bond `k * b`
has face value `k * b.face_value` and coupon `k * b.coupon`, while its
coupon period in days, first coupon date and maturity date are unchanged. -/
theorem claim_C5 (b : Bond) (k : Int) (hk : 0 < k) :
    (Bond.rmul (PyScalar.int k) b).map Bond.face_value = Except.ok ((k : ℚ) * b.face_value)
      ∧ (Bond.rmul (PyScalar.int k) b).map Bond.coupon = Except.ok ((k : ℚ) * b.coupon)
      ∧ (Bond.rmul (PyScalar.int k) b).map Bond.coupon_days = Except.ok b.coupon_days
      ∧ (Bond.rmul (PyScalar.int k) b).map Bond.first_coupon_date
          = Except.ok b.first_coupon_date
      ∧ (Bond.rmul (PyScalar.int k) b).map Bond.maturity_date = Except.ok b.maturity_date := by
  unfold Bond.rmul Bond.mul
  refine ⟨?_, ?_, rfl, rfl, rfl⟩ <;> simp [Except.map] <;> ring

/-- Witness for C5: multiplying `ofz_29012` by 10 multiplies face value and
coupon by 10 (the spec's scenario: 10000 and 395.90). -/
theorem claim_C5_witness :
    (Bond.rmul (PyScalar.int 10) ofz_29012).map Bond.face_value
        = Except.ok (((10 : Int) : ℚ) * ofz_29012.face_value)
      ∧ (Bond.rmul (PyScalar.int 10) ofz_29012).map Bond.coupon
        = Except.ok (((10 : Int) : ℚ) * ofz_29012.coupon) :=
  ⟨(claim_C5 ofz_29012 10 (by norm_num)).1, (claim_C5 ofz_29012 10 (by norm_num)).2.1⟩

/-- C6: the coupon payments are exactly the pairs `(d, coupon)` with
`d = first_coupon_date + k * coupon_days` for some `k` and `d ≤
maturity_date`: every generated date up to maturity is included, the first
date strictly past maturity stops generation, and nothing forces the last
date to equal the maturity date. -/
theorem claim_C6 (b : Bond) (d : Nat) (a : ℚ) :
    (d, a) ∈ b.coupon_payments ↔
      a = b.coupon ∧ d ≤ b.maturity_date
        ∧ ∃ k : Nat, d = b.first_coupon_date + k * b.coupon_days :=
  couponLoop_mem b.coupon_days b.coupon_days_pos b.coupon
    b.first_coupon_date b.maturity_date d a

/-- Witness for C6: the first coupon date of `ofz_29012` is a payment. -/
theorem claim_C6_witness :
    (toOrdinal 2019 11 20, (3959 / 100 : ℚ)) ∈ ofz_29012.coupon_payments :=
  (claim_C6 ofz_29012 (toOrdinal 2019 11 20) (3959 / 100)).mpr
    ⟨rfl, by norm_num [ofz_29012, toOrdinal, daysBeforeYear, daysBeforeMonthTable, isLeap],
      0, by simp [ofz_29012]⟩

/-- C7: `current_yield` equals the annualized coupon
(`coupon × 365 / coupon_period_days`) divided by the price, and the
computation fails with `DivisionByZero` exactly when the price is zero. -/
theorem claim_C7 (dl : BondDeal) :
    (dl.current_yield = Except.error "DivisionByZero" ↔ dl.price = 0)
      ∧ (dl.price ≠ 0 →
          dl.current_yield
            = Except.ok (dl.bond.coupon * 365 / (dl.bond.coupon_days : ℚ) / dl.price)) := by
  unfold BondDeal.current_yield decDiv Bond.coupon_per_year DAYS_PER_YEAR
  by_cases hp : dl.price = 0 <;> simp [hp]

/-- Witness for C7: a deal on `ofz_29012` at price 1000 has the stated
current yield and does not fail. -/
theorem claim_C7_witness :
    BondDeal.current_yield ⟨ofz_29012, 1000⟩
      = Except.ok (ofz_29012.coupon * 365 / (ofz_29012.coupon_days : ℚ) / 1000) :=
  (claim_C7 ⟨ofz_29012, 1000⟩).2 (by norm_num)

/-- C8: `yield_to_maturity` is the secant method applied to the spec's
pricing function `f(r) = coupon × (1 − (1+r)^(−n)) / r + face_value ×
(1+r)^(−n) − price`, started from `r0 = 0.000001` and `r1 = 1`, run for
exactly 100 iterations with no early-exit check, the final periodic rate
annualized as `r × 365 / coupon_period_days`.  (`utils.secant` itself is
modelled from the spec, `utils.py` not being part of `src/`.) -/
theorem claim_C8 (dl : BondDeal) :
    dl.yield_to_maturity
      = (secant (specPricingF dl.bond dl.price) (1 / 1000000) 1 100).map
          (fun r => r * 365 / (dl.bond.coupon_days : ℚ)) := by
  unfold BondDeal.yield_to_maturity DAYS_PER_YEAR
  have hf : dl.yield_to_maturity_function = specPricingF dl.bond dl.price := by
    funext r
    unfold BondDeal.yield_to_maturity_function specPricingF
    rw [zpow_neg, zpow_natCast]
    simp only [div_eq_mul_inv, one_div]
    ring
  rw [hf]

/-- C9: no emitted month carries a zero amount, and a month in which no bond
pays cannot appear in the report at all. -/
theorem claim_C9 (bonds : List Bond) :
    (∀ e ∈ print_all_coupons bonds, e.2 ≠ 0)
      ∧ (∀ mk : Nat, monthPayments bonds mk = 0 →
          ∀ v : ℚ, (mk, v) ∉ print_all_coupons bonds) := by
  constructor
  · rintro ⟨mk, v⟩ he
    exact (mem_report bonds mk v he).2
  · intro mk h0 v hv
    obtain ⟨h1, h2⟩ := mem_report bonds mk v hv
    exact h2 (by rw [h1, monthValue_eq_two_mul bonds mk, h0, mul_zero])

/-- Witness for C9 at the concrete one-bond portfolio: its only report row
carries a nonzero amount. -/
theorem claim_C9_witness : ((24240 : Nat), (2 : ℚ)).2 ≠ 0 :=
  (claim_C9 [testBondA]).1 (24240, 2) (by rw [reportA_eval]; exact List.mem_singleton.mpr rfl)

/-- C10: a bond whose first coupon date lies strictly after its maturity
date raises no error: `coupon_payments` is empty and `n` is 0, both loops
terminating for any positive coupon period. -/
theorem claim_C10 (b : Bond) (h : b.maturity_date < b.first_coupon_date) :
    b.coupon_payments = [] ∧ b.n = 0 := by
  constructor
  · unfold Bond.coupon_payments
    rw [couponLoop_eq, if_neg (by omega)]
  · unfold Bond.n
    rw [countLoop_eq, if_neg (by omega)]

/-- Witness for C10 at a concrete bond maturing before its first coupon. -/
theorem claim_C10_witness : testBondLate.coupon_payments = [] ∧ testBondLate.n = 0 :=
  claim_C10 testBondLate (by decide)
